import Mathlib

/-!
Verification development for the GIOŚ air-quality API client (`src/api.py`).

The module under study has four public operations: `fetch_stations`,
`fetch_sensors_for_station`, `fetch_measurements_for_sensor` (thin HTTP GET
wrappers with a shared try/except policy) and `process_measurement_data`
(the data normalizer).  We embed the Python semantics shallowly:

* JSON wire values are the inductive `Json`.  A JSON number literal is kept
  exactly as mantissa × 10^exponent (`Json.num m e`), which is faithful to
  the decimal wire format and keeps every operation kernel-computable.
* Python floats are modelled by the exact decimal `PyFloat` (mantissa and
  base-10 exponent) that `float()` parses; IEEE rounding is abstracted away,
  which is sound here because the program only stores parsed values and
  never computes with them.
* Exceptions are explicit: `Except PyError α` distinguishes an uncaught
  `TypeError`/`AttributeError` from a normal return, and a normal return of
  Python `None` is `Option.none`.
* `print` diagnostics are modelled as a `List Warning` / `List String`
  component of the result.
* The network is abstracted as an `Except RequestError Json` outcome handed
  to each fetch wrapper: `.error` stands for any caught
  `requests.exceptions.RequestException` (connection failure, timeout,
  `raise_for_status` HTTP error), `.ok` for a decoded JSON body.
-/

namespace GiosApi

/-- JSON wire values.  Object fields are listed in wire order; objects
decoded from JSON have pairwise distinct keys.  A number literal with
integer mantissa `m` and decimal exponent `e` denotes `m * 10 ^ e`. -/
inductive Json where
  | null
  | bool (b : Bool)
  | num (m : Int) (e : Int)
  | str (s : String)
  | arr (items : List Json)
  | obj (fields : List (String × Json))

/-- Python `TypeError` / `AttributeError`, the two exception classes the
normalizer can raise without catching them. -/
inductive PyError where
  | typeError
  | attributeError
  deriving DecidableEq

/-- Python truthiness (`bool(x)`) for decoded JSON values: `None`, `False`,
zero, and empty containers/strings are falsy. -/
def pyTruthy : Json → Bool
  | .null => false
  | .bool b => b
  | .num m _ => !(m == 0)
  | .str s => !s.isEmpty
  | .arr items => !items.isEmpty
  | .obj fields => !fields.isEmpty

/-- First-match lookup in an object's field list (objects decoded from JSON
have distinct keys, so this is dict lookup). -/
def jlookup : List (String × Json) → String → Option Json
  | [], _ => none
  | (k, v) :: rest, key => if k = key then some v else jlookup rest key

/-- Whether the character list `needle` is a prefix of `hay`. -/
def charsPre : List Char → List Char → Bool
  | [], _ => true
  | _ :: _, [] => false
  | a :: as, b :: bs => a == b && charsPre as bs

/-- Whether the character list `needle` occurs contiguously in `hay`
(Python `needle in hay` for strings). -/
def charsSub (needle : List Char) : List Char → Bool
  | [] => charsPre needle []
  | c :: cs => charsPre needle (c :: cs) || charsSub needle cs

/-- Python `k in x` for a string key `k`: dict key test, list membership
(a non-string element never equals a string), substring test on strings;
`TypeError` on values that are not containers. -/
def pyContains (j : Json) (k : String) : Except PyError Bool :=
  match j with
  | .obj fields => .ok (jlookup fields k).isSome
  | .arr items => .ok (items.any fun x => match x with | .str s => s == k | _ => false)
  | .str s => .ok (charsSub k.data s.data)
  | _ => .error .typeError

/-- Python `x.get(k, dflt)`: only dict-like values have `.get`; anything
else raises `AttributeError`. -/
def pyDictGetD (j : Json) (k : String) (dflt : Json) : Except PyError Json :=
  match j with
  | .obj fields => .ok ((jlookup fields k).getD dflt)
  | _ => .error .attributeError

/-- Python `x.get(k)` (default `None`). -/
def pyDictGet (j : Json) (k : String) : Except PyError Json :=
  pyDictGetD j k Json.null

/-- Python iteration `for item in x`: lists yield their elements, strings
their characters (as one-character strings), dicts their keys; `None` and
numbers raise `TypeError`. -/
def pyIter : Json → Except PyError (List Json)
  | .arr items => .ok items
  | .str s => .ok (s.data.map fun c => Json.str (String.mk [c]))
  | .obj fields => .ok (fields.map fun p => Json.str p.1)
  | _ => .error .typeError

/-- A parsed `datetime.datetime` (second precision, as produced by
`datetime.strptime` with format `%Y-%m-%d %H:%M:%S`). -/
structure PyDateTime where
  year : Nat
  month : Nat
  day : Nat
  hour : Nat
  minute : Nat
  second : Nat
  deriving DecidableEq

/-- Decimal digit value of a character, if it is a digit. -/
def digit? (c : Char) : Option Nat :=
  if c.isDigit then some (c.toNat - 48) else none

/-- Read exactly four digits (the `%Y` directive). -/
def read4 : List Char → Option (Nat × List Char)
  | a :: b :: c :: d :: rest =>
    match digit? a, digit? b, digit? c, digit? d with
    | some w, some x, some y, some z => some (((w * 10 + x) * 10 + y) * 10 + z, rest)
    | _, _, _, _ => none
  | _ => none

/-- Read one or two digits, greedily (the two-digit numeric directives
`%m`, `%d`, `%H`, `%M`, `%S` accept one or two digits). -/
def read1or2 : List Char → Option (Nat × List Char)
  | [] => none
  | a :: rest =>
    match digit? a with
    | none => none
    | some d =>
      match rest with
      | b :: rest2 =>
        match digit? b with
        | some d2 => some (d * 10 + d2, rest2)
        | none => some (d, rest)
      | [] => some (d, [])

/-- Consume one expected literal character. -/
def expectChar (c : Char) : List Char → Option (List Char)
  | x :: rest => if x == c then some rest else none
  | [] => none

/-- Number of days in a month, Gregorian rules (as validated by
`datetime`). -/
def daysInMonth (y m : Nat) : Nat :=
  if m = 2 then (if y % 4 = 0 ∧ (y % 100 ≠ 0 ∨ y % 400 = 0) then 29 else 28)
  else if m = 4 ∨ m = 6 ∨ m = 9 ∨ m = 11 then 30 else 31

/-- `datetime.strptime(s, "%Y-%m-%d %H:%M:%S")`, returning `none` where
Python raises `ValueError`: the whole string must match the format and the
fields must form a valid timestamp (`datetime` requires year ≥ 1, a day
valid for the month, hour ≤ 23, minute/second ≤ 59). -/
def strptimeYmdHMS (s : String) : Option PyDateTime := do
  let (y, r1) ← read4 s.data
  let r2 ← expectChar '-' r1
  let (mo, r3) ← read1or2 r2
  let r4 ← expectChar '-' r3
  let (d, r5) ← read1or2 r4
  let r6 ← expectChar ' ' r5
  let (h, r7) ← read1or2 r6
  let r8 ← expectChar ':' r7
  let (mi, r9) ← read1or2 r8
  let r10 ← expectChar ':' r9
  let (se, r11) ← read1or2 r10
  if r11.isEmpty ∧ 1 ≤ y ∧ 1 ≤ mo ∧ mo ≤ 12 ∧ 1 ≤ d ∧ d ≤ daysInMonth y mo
      ∧ h ≤ 23 ∧ mi ≤ 59 ∧ se ≤ 59 then
    pure ⟨y, mo, d, h, mi, se⟩
  else
    none

/-- The exact decimal value `mant * 10 ^ exp` that a Python float was
parsed from.  The program never computes with floats, so keeping the
parsed decimal exactly is a faithful abstraction of the IEEE value. -/
structure PyFloat where
  mant : Int
  exp : Int
  deriving DecidableEq

/-- Split off a maximal run of leading decimal digits. -/
def takeDigits : List Char → List Nat × List Char
  | [] => ([], [])
  | c :: cs =>
    match digit? c with
    | some d => let p := takeDigits cs; (d :: p.1, p.2)
    | none => ([], c :: cs)

/-- Value of a digit list read most-significant first. -/
def natOfDigits (ds : List Nat) : Nat :=
  ds.foldl (fun a d => a * 10 + d) 0

/-- Python `float(s)` on a string, returning `none` where Python raises
`ValueError`: optional surrounding whitespace, an optional sign, a decimal
mantissa with at least one digit, and an optional `e`/`E` exponent with at
least one digit; nothing may follow.  (The special spellings `inf`,
`infinity`, `nan` and digit-group underscores are not representable in the
exact-decimal model and are out of scope: no claim touches them.) -/
def pyStrToFloat (s : String) : Option PyFloat :=
  let cs := ((s.data.dropWhile Char.isWhitespace).reverse.dropWhile Char.isWhitespace).reverse
  let sp : Int × List Char :=
    match cs with
    | '+' :: r => (1, r)
    | '-' :: r => (-1, r)
    | r => (1, r)
  let ipr := takeDigits sp.2
  let fr : List Nat × List Char :=
    match ipr.2 with
    | '.' :: rest => takeDigits rest
    | _ => ([], ipr.2)
  let mantDigits := ipr.1 ++ fr.1
  if mantDigits.isEmpty then none
  else
    match fr.2 with
    | [] => some ⟨sp.1 * (natOfDigits mantDigits : Int), -(fr.1.length : Int)⟩
    | e :: r3 =>
      if e == 'e' || e == 'E' then
        let esp : Int × List Char :=
          match r3 with
          | '+' :: r => (1, r)
          | '-' :: r => (-1, r)
          | r => (1, r)
        let edr := takeDigits esp.2
        if edr.1.isEmpty ∨ ¬edr.2.isEmpty then none
        else some ⟨sp.1 * (natOfDigits mantDigits : Int),
                   esp.1 * (natOfDigits edr.1 : Int) - (fr.1.length : Int)⟩
      else none

/-- Python `float(x)` on a decoded JSON value, in the context of the
normalizer's `except (ValueError, TypeError)` handler: `none` covers both
an unparseable string (`ValueError`) and a non-numeric type
(`TypeError`), since the code treats them identically. -/
def pyFloatOf : Json → Option PyFloat
  | .str s => pyStrToFloat s
  | .num m e => some ⟨m, e⟩
  | .bool b => some (if b then ⟨1, 0⟩ else ⟨0, 0⟩)
  | _ => none

/-- One diagnostic `print` of the normalizer: the validation-gate error
(`"Błąd: Nieprawidłowe dane pomiarowe do przetworzenia."`), the date-format
warning (`"Ostrzeżenie: Nieprawidłowy format daty: …"`) and the numeric
warning (`"Ostrzeżenie: Nieprawidłowa wartość liczbowa: …"`). -/
inductive Warning where
  | invalidInput
  | badDate (s : String)
  | badValue (v : Json)

/-- One normalized entry: `{'date': datetime-or-None, 'value': float-or-None}`. -/
structure NormEntry where
  date : Option PyDateTime
  value : Option PyFloat

/-- The normalized series: `{'key': …, 'values': […]}`. -/
structure NormSeries where
  key : Json
  values : List NormEntry

/-- The value branch of the loop body (lines 116–122 of `api.py`): skip
wire-null without a warning, otherwise attempt `float(...)`; both
`ValueError` and `TypeError` are caught, warn and leave the value absent. -/
def parseValue : Json → List Warning × Option PyFloat
  | .null => ([], none)
  | v =>
    match pyFloatOf v with
    | some f => ([], some f)
    | none => ([Warning.badValue v], none)

/-- The date branch of the loop body (lines 107–113 of `api.py`): a falsy
date (`None`, missing, empty string) is skipped silently; a truthy string
is parsed, with `ValueError` caught as a warning; `strptime` on a truthy
non-string raises `TypeError`, which the code does not catch. -/
def parseDate (dateJ : Json) : Except PyError (List Warning × Option PyDateTime) :=
  if pyTruthy dateJ then
    match dateJ with
    | .str s =>
      match strptimeYmdHMS s with
      | some dt => .ok ([], some dt)
      | none => .ok ([Warning.badDate s], none)
    | _ => .error .typeError
  else
    .ok ([], none)

/-- The loop body of `process_measurement_data` for one entry `item`:
`item.get('date')` / `item.get('value')` (an `AttributeError` on
non-dict entries is uncaught), then the two independent branches. -/
def processItem (item : Json) : Except PyError (List Warning × NormEntry) :=
  match pyDictGet item "date" with
  | .error e => .error e
  | .ok dateJ =>
    match pyDictGet item "value" with
    | .error e => .error e
    | .ok valueJ =>
      match parseDate dateJ with
      | .error e => .error e
      | .ok dr =>
        let vr := parseValue valueJ
        .ok (dr.1 ++ vr.1, ⟨dr.2, vr.2⟩)

/-- The whole `for item in …` loop: entries are processed left to right,
warnings accumulate in order, and an uncaught exception aborts the loop
(warnings already printed are kept). -/
def processItems : List Json → List Warning × Except PyError (List NormEntry)
  | [] => ([], .ok [])
  | it :: rest =>
    match processItem it with
    | .error e => ([], .error e)
    | .ok (w, en) =>
      match processItems rest with
      | (ws, .error e) => (w ++ ws, .error e)
      | (ws, .ok ens) => (w ++ ws, .ok (en :: ens))

/-- `process_measurement_data` (lines 81–132 of `api.py`).  The result is
the list of printed diagnostics together with either an uncaught exception
or the returned value (`none` for Python `None`).  The validation gate is
`if not raw_measurements_data or 'values' not in raw_measurements_data`,
then `{'key': raw.get('key')}` and the per-entry loop over
`raw.get('values', [])`. -/
def process_measurement_data (raw : Json) : List Warning × Except PyError (Option NormSeries) :=
  if pyTruthy raw = false then ([Warning.invalidInput], .ok none)
  else
    match pyContains raw "values" with
    | .error e => ([], .error e)
    | .ok false => ([Warning.invalidInput], .ok none)
    | .ok true =>
      match pyDictGet raw "key" with
      | .error e => ([], .error e)
      | .ok keyJ =>
        match pyDictGetD raw "values" (Json.arr []) with
        | .error e => ([], .error e)
        | .ok valuesJ =>
          match pyIter valuesJ with
          | .error e => ([], .error e)
          | .ok items =>
            match processItems items with
            | (ws, .error e) => (ws, .error e)
            | (ws, .ok ens) => (ws, .ok (some ⟨keyJ, ens⟩))

/-! ## Well-formed raw series (the wire shape of §3 of the spec) -/

/-- One raw entry as the wire format delivers it: a date string and a
value that is a string or wire-null (`none` encodes wire-null). -/
structure RawEntry where
  date : Option String
  value : Option String

/-- Encode an optional string as its JSON wire value. -/
def optStrJson : Option String → Json
  | some s => Json.str s
  | none => Json.null

/-- The JSON record of one raw entry. -/
def rawEntryJson (e : RawEntry) : Json :=
  Json.obj [("date", optStrJson e.date), ("value", optStrJson e.value)]

/-- A raw measurement series: parameter key plus ordered entries. -/
structure RawSeries where
  key : String
  values : List RawEntry

/-- The JSON record of a raw series, as `data/getData` returns it. -/
def RawSeries.toJson (r : RawSeries) : Json :=
  Json.obj [("key", Json.str r.key), ("values", Json.arr (r.values.map rawEntryJson))]

/-- The normalized entry that the loop body produces for a well-formed raw
entry (on such entries the body cannot raise, see `processItem_rawEntry`). -/
def normRawEntry (e : RawEntry) : NormEntry :=
  match processItem (rawEntryJson e) with
  | .ok p => p.2
  | .error _ => ⟨none, none⟩

/-! ## Shape predicates used by the safety analysis -/

/-- A date field value on which the date branch cannot raise: a string, or
anything falsy (skipped before `strptime` is reached). -/
def dateFieldSafe (d : Json) : Bool :=
  match d with
  | .str _ => true
  | _ => !pyTruthy d

/-- An entry on which the loop body cannot raise: a record whose date
field is safe (the value branch catches all its exceptions). -/
def itemSafe (item : Json) : Bool :=
  match item with
  | .obj gs => dateFieldSafe ((jlookup gs "date").getD Json.null)
  | _ => false

/-- Inputs on which `process_measurement_data` cannot raise: wire-null, or
a record whose `values` field is absent or is a list of safe entries. -/
def safeInput (j : Json) : Bool :=
  match j with
  | .null => true
  | .obj fs =>
    match jlookup fs "values" with
    | none => true
    | some (.arr items) => items.all itemSafe
    | some _ => false
  | _ => false

/-- The input is absent (wire-null) or has no `values` field — the
condition the spec names for the validation gate. -/
def lacksValuesField (j : Json) : Bool :=
  match j with
  | .obj fs => (jlookup fs "values").isNone
  | _ => true

/-! ## The fetch wrappers

Each wrapper runs one `requests.get` plus `raise_for_status` plus
`.json()`, with every `requests.exceptions.RequestException` caught,
printed and turned into a `None` return.  The network interaction is
abstracted as the `Except RequestError Json` outcome of that GET. -/

/-- A caught `requests.exceptions.RequestException`: its kind (connection
failure, timeout, or HTTP error status raised by `raise_for_status`) and
its rendered message `str(e)`. -/
structure RequestError where
  kind : Nat
  msg : String

/-- `fetch_stations` (lines 8–32 of `api.py`): on success return the
decoded body verbatim, on any request failure print the Polish diagnostic
and return `None`. -/
def fetch_stations (outcome : Except RequestError Json) : Option Json × List String :=
  match outcome with
  | .ok body => (some body, [])
  | .error e => (none, ["Błąd pobierania stacji z GIOŚ API: " ++ e.msg])

/-- `fetch_sensors_for_station` (lines 34–56): same policy, diagnostic
parameterized by the station id. -/
def fetch_sensors_for_station (station_id : Int) (outcome : Except RequestError Json) :
    Option Json × List String :=
  match outcome with
  | .ok body => (some body, [])
  | .error e =>
    (none, ["Błąd pobierania sensorów dla stacji " ++ toString station_id
            ++ " z GIOŚ API: " ++ e.msg])

/-- `fetch_measurements_for_sensor` (lines 58–79): same policy, diagnostic
parameterized by the sensor id. -/
def fetch_measurements_for_sensor (sensor_id : Int) (outcome : Except RequestError Json) :
    Option Json × List String :=
  match outcome with
  | .ok body => (some body, [])
  | .error e =>
    (none, ["Błąd pobierania pomiarów dla sensora " ++ toString sensor_id
            ++ " z GIOŚ API: " ++ e.msg])

/-! ## State-instrumented normalizer

`process_measurement_data` only reads its argument: every access is
`not x` / `'values' in x` / `x.get(…)` / iteration, none of which mutates,
and the output dict and list are freshly allocated.  To state this as a
frame property, the instrumented variants below thread the input value
through every step as an explicit state; a mutating step would replace it,
a reading step returns it unchanged. -/

/-- The loop with the raw input threaded as state. -/
def processItemsSt (st : Json) : List Json → Json × (List Warning × Except PyError (List NormEntry))
  | [] => (st, ([], .ok []))
  | it :: rest =>
    match processItem it with
    | .error e => (st, ([], .error e))
    | .ok (w, en) =>
      match processItemsSt st rest with
      | (st2, (ws, .error e)) => (st2, (w ++ ws, .error e))
      | (st2, (ws, .ok ens)) => (st2, (w ++ ws, .ok (en :: ens)))

/-- `process_measurement_data` with the raw input threaded as state: the
first component is the input value as the call leaves it. -/
def process_measurement_data_st (raw : Json) :
    Json × (List Warning × Except PyError (Option NormSeries)) :=
  if pyTruthy raw = false then (raw, ([Warning.invalidInput], .ok none))
  else
    match pyContains raw "values" with
    | .error e => (raw, ([], .error e))
    | .ok false => (raw, ([Warning.invalidInput], .ok none))
    | .ok true =>
      match pyDictGet raw "key" with
      | .error e => (raw, ([], .error e))
      | .ok keyJ =>
        match pyDictGetD raw "values" (Json.arr []) with
        | .error e => (raw, ([], .error e))
        | .ok valuesJ =>
          match pyIter valuesJ with
          | .error e => (raw, ([], .error e))
          | .ok items =>
            match processItemsSt raw items with
            | (st2, (ws, .error e)) => (st2, (ws, .error e))
            | (st2, (ws, .ok ens)) => (st2, (ws, .ok (some ⟨keyJ, ens⟩)))

/-! ## Helper lemmas -/

/-- Restriction of the date branch to well-formed date fields (a string or
wire-null), on which it cannot raise. -/
def parseDateStr : Option String → List Warning × Option PyDateTime
  | none => ([], none)
  | some s =>
    if s.isEmpty then ([], none)
    else
      match strptimeYmdHMS s with
      | some dt => ([], some dt)
      | none => ([Warning.badDate s], none)

lemma parseDate_optStr (d : Option String) :
    parseDate (optStrJson d) = .ok (parseDateStr d) := by
  cases d with
  | none => rfl
  | some s =>
    cases hs : s.isEmpty with
    | true => simp [parseDate, optStrJson, pyTruthy, parseDateStr, hs]
    | false =>
      cases hp : strptimeYmdHMS s with
      | some dt => simp [parseDate, optStrJson, pyTruthy, parseDateStr, hs, hp]
      | none => simp [parseDate, optStrJson, pyTruthy, parseDateStr, hs, hp]

lemma parseDateStr_no_badValue (d : Option String) (u : Json) :
    Warning.badValue u ∉ (parseDateStr d).1 := by
  cases d with
  | none => simp [parseDateStr]
  | some s =>
    cases hs : s.isEmpty with
    | true => simp [parseDateStr, hs]
    | false =>
      cases hp : strptimeYmdHMS s with
      | some dt => simp [parseDateStr, hs, hp]
      | none => simp [parseDateStr, hs, hp]

lemma parseValue_no_badDate (v : Json) (s : String) :
    Warning.badDate s ∉ (parseValue v).1 := by
  cases v with
  | null => simp [parseValue]
  | bool b => cases hb : pyFloatOf (Json.bool b) <;> simp [parseValue, hb]
  | num m e => cases hn : pyFloatOf (Json.num m e) <;> simp [parseValue, hn]
  | str t => cases ht : pyFloatOf (Json.str t) <;> simp [parseValue, ht]
  | arr items => cases ha : pyFloatOf (Json.arr items) <;> simp [parseValue, ha]
  | obj fields => cases ho : pyFloatOf (Json.obj fields) <;> simp [parseValue, ho]

lemma processItem_rawEntry (e : RawEntry) :
    processItem (rawEntryJson e)
      = .ok ((parseDateStr e.date).1 ++ (parseValue (optStrJson e.value)).1,
             ⟨(parseDateStr e.date).2, (parseValue (optStrJson e.value)).2⟩) := by
  have hpd := parseDate_optStr e.date
  simp [processItem, rawEntryJson, pyDictGet, pyDictGetD, jlookup, hpd]

lemma normRawEntry_eq (e : RawEntry) :
    normRawEntry e = ⟨(parseDateStr e.date).2, (parseValue (optStrJson e.value)).2⟩ := by
  simp [normRawEntry, processItem_rawEntry]

lemma processItems_map (l : List RawEntry) :
    ∃ ws, processItems (l.map rawEntryJson) = (ws, .ok (l.map normRawEntry)) := by
  induction l with
  | nil => exact ⟨[], rfl⟩
  | cons e rest ih =>
    obtain ⟨ws, hws⟩ := ih
    refine ⟨((parseDateStr e.date).1 ++ (parseValue (optStrJson e.value)).1) ++ ws, ?_⟩
    simp [processItems, processItem_rawEntry, hws, normRawEntry_eq]

lemma process_rawSeries (r : RawSeries) :
    ∃ ws, process_measurement_data r.toJson
      = (ws, .ok (some ⟨Json.str r.key, r.values.map normRawEntry⟩)) := by
  obtain ⟨ws, hws⟩ := processItems_map r.values
  refine ⟨ws, ?_⟩
  have hred : process_measurement_data r.toJson
      = (match processItems (r.values.map rawEntryJson) with
         | (ws, Except.error e) => (ws, Except.error e)
         | (ws, Except.ok ens) => (ws, Except.ok (some ⟨Json.str r.key, ens⟩))) := rfl
  rw [hred, hws]

lemma parseDate_safe (d : Json) (h : dateFieldSafe d = true) :
    ∃ p, parseDate d = .ok p := by
  cases d with
  | str s =>
    cases hs : s.isEmpty with
    | true => exact ⟨([], none), by simp [parseDate, pyTruthy, hs]⟩
    | false =>
      cases hp : strptimeYmdHMS s with
      | some dt => exact ⟨([], some dt), by simp [parseDate, pyTruthy, hs, hp]⟩
      | none => exact ⟨([Warning.badDate s], none), by simp [parseDate, pyTruthy, hs, hp]⟩
  | null => exact ⟨([], none), rfl⟩
  | bool b =>
    simp [dateFieldSafe, pyTruthy] at h
    exact ⟨([], none), by simp [parseDate, pyTruthy, h]⟩
  | num m e =>
    simp [dateFieldSafe, pyTruthy] at h
    exact ⟨([], none), by simp [parseDate, pyTruthy, h]⟩
  | arr items =>
    simp [dateFieldSafe, pyTruthy] at h
    exact ⟨([], none), by simp [parseDate, pyTruthy, h]⟩
  | obj fields =>
    simp [dateFieldSafe, pyTruthy] at h
    exact ⟨([], none), by simp [parseDate, pyTruthy, h]⟩

lemma processItem_safe (item : Json) (h : itemSafe item = true) :
    ∃ p, processItem item = .ok p := by
  cases item with
  | obj gs =>
    simp only [itemSafe] at h
    obtain ⟨⟨dw, dd⟩, hpd⟩ := parseDate_safe _ h
    exact ⟨(dw ++ (parseValue ((jlookup gs "value").getD Json.null)).1,
            ⟨dd, (parseValue ((jlookup gs "value").getD Json.null)).2⟩),
           by simp [processItem, pyDictGet, pyDictGetD, hpd]⟩
  | null => simp [itemSafe] at h
  | bool b => simp [itemSafe] at h
  | num m e => simp [itemSafe] at h
  | str s => simp [itemSafe] at h
  | arr items => simp [itemSafe] at h

lemma processItems_safe (items : List Json) (h : items.all itemSafe = true) :
    ∃ ws ens, processItems items = (ws, .ok ens) := by
  induction items with
  | nil => exact ⟨[], [], rfl⟩
  | cons it rest ih =>
    rw [List.all_cons, Bool.and_eq_true] at h
    obtain ⟨⟨w, en⟩, hit⟩ := processItem_safe it h.1
    obtain ⟨ws, ens, hrest⟩ := ih h.2
    exact ⟨w ++ ws, en :: ens, by simp [processItems, hit, hrest]⟩

lemma processItemsSt_frame (st : Json) (l : List Json) :
    processItemsSt st l = (st, processItems l) := by
  induction l with
  | nil => rfl
  | cons it rest ih =>
    cases hpi : processItem it with
    | error e => simp [processItemsSt, processItems, hpi]
    | ok p =>
      obtain ⟨w, en⟩ := p
      rcases hpr : processItems rest with ⟨ws, res⟩
      cases res <;> simp [processItemsSt, processItems, hpi, ih, hpr]

lemma process_st_eq (raw : Json) :
    process_measurement_data_st raw = (raw, process_measurement_data raw) := by
  unfold process_measurement_data_st process_measurement_data
  by_cases ht : pyTruthy raw = false
  · simp [ht]
  · cases hpc : pyContains raw "values" with
    | error e => simp [ht, hpc]
    | ok b =>
      cases b with
      | false => simp [ht, hpc]
      | true =>
        cases hk : pyDictGet raw "key" with
        | error e => simp [ht, hpc, hk]
        | ok keyJ =>
          cases hv : pyDictGetD raw "values" (Json.arr []) with
          | error e => simp [ht, hpc, hk, hv]
          | ok valuesJ =>
            cases hit : pyIter valuesJ with
            | error e => simp [ht, hpc, hk, hv, hit]
            | ok items =>
              rcases hpi : processItems items with ⟨ws, res⟩
              cases res with
              | error e => simp [ht, hpc, hk, hv, hit, processItemsSt_frame, hpi]
              | ok ens => simp [ht, hpc, hk, hv, hit, processItemsSt_frame, hpi]

lemma process_rawSeries_snd (r : RawSeries) :
    (process_measurement_data r.toJson).2
      = Except.ok (some ⟨Json.str r.key, r.values.map normRawEntry⟩) := by
  obtain ⟨ws, hws⟩ := process_rawSeries r
  rw [hws]

lemma process_after_gate (fs : List (String × Json)) (v : Json)
    (hlk : jlookup fs "values" = some v) :
    (process_measurement_data (Json.obj fs)).2 ≠ Except.ok none := by
  have ht : pyTruthy (Json.obj fs) = true := by
    cases fs with
    | nil => simp [jlookup] at hlk
    | cons p rest => rfl
  cases hit : pyIter v with
  | error e =>
    simp [process_measurement_data, ht, pyContains, hlk, pyDictGet, pyDictGetD, hit]
  | ok items =>
    rcases hpi : processItems items with ⟨ws, res⟩
    cases res with
    | error e =>
      simp [process_measurement_data, ht, pyContains, hlk, pyDictGet, pyDictGetD, hit, hpi]
    | ok ens =>
      simp [process_measurement_data, ht, pyContains, hlk, pyDictGet, pyDictGetD, hit, hpi]

/-! ## The claims -/

/-- Claim C1: for every raw measurement series (which always passes the
validation gate: its record is non-empty and carries a `values` field),
`process_measurement_data` returns a normalized series that keeps the
original key and has exactly one normalized entry per raw entry, in the
original order — the output entry list is the entrywise image of the input
entry list, and either field of an entry may be absent. -/
theorem claim_C1 (r : RawSeries) :
    (process_measurement_data r.toJson).2
      = Except.ok (some ⟨Json.str r.key, r.values.map normRawEntry⟩) :=
  process_rawSeries_snd r

/-- Claim C2, counterexample: on the malformed shape the claim itself
names — a series whose `values` field is wire-null — the normalizer does
not return a value or an absent result: iterating `None` raises an
uncaught `TypeError`, which escapes the module boundary. -/
theorem claim_C2_counterexample :
    process_measurement_data (Json.obj [("key", Json.str "PM10"), ("values", Json.null)])
      = ([], Except.error PyError.typeError) := rfl

/-- Claim C2, amended: the fetch operations never raise (they return a
value or `None` for every outcome — see `claim_C8` for the failure side),
and `process_measurement_data` returns a value or an explicit absent
result for every input that is wire-null or a record whose `values`
field, when present, is a list of records with string-valued or falsy
`date` fields; on other malformed shapes (wire-null `values`, entries
that are not records, truthy non-string dates) an exception escapes. -/
theorem claim_C2 (j : Json) (hs : safeInput j = true) :
    ∃ r, (process_measurement_data j).2 = Except.ok r := by
  cases j with
  | null => exact ⟨none, rfl⟩
  | bool b => simp [safeInput] at hs
  | num m e => simp [safeInput] at hs
  | str s => simp [safeInput] at hs
  | arr items => simp [safeInput] at hs
  | obj fs =>
    cases hfs : fs with
    | nil => exact ⟨none, rfl⟩
    | cons p rest =>
      have ht : pyTruthy (Json.obj fs) = true := by rw [hfs]; rfl
      rw [← hfs]
      simp only [safeInput] at hs
      rcases hlk : jlookup fs "values" with _ | v
      · rw [hlk] at hs
        exact ⟨none, by simp [process_measurement_data, ht, pyContains, hlk]⟩
      · rw [hlk] at hs
        cases v with
        | arr items =>
          obtain ⟨ws, ens, hpi⟩ := processItems_safe items hs
          exact ⟨some ⟨(jlookup fs "key").getD Json.null, ens⟩,
            by simp [process_measurement_data, ht, pyContains, hlk,
                     pyDictGet, pyDictGetD, pyIter, hpi]⟩
        | null => simp at hs
        | bool b => simp at hs
        | num m e => simp at hs
        | str s => simp at hs
        | obj gs => simp at hs

/-- Claim C2, witness: a concrete well-formed series is processed without
an exception. -/
theorem claim_C2_witness :
    ∃ r, (process_measurement_data (Json.obj [("key", Json.str "PM10"),
      ("values", Json.arr [Json.obj [("date", Json.str "2024-01-01 10:00:00"),
                                     ("value", Json.str "12.5")]])])).2
      = Except.ok r :=
  claim_C2 _ (by decide)

/-- Claim C3: for every raw entry, a wire-null value yields an absent
normalized value with no numeric warning (any warnings are date warnings
only); a present value string that fails float conversion yields an
absent normalized value with a numeric warning logged; in both cases the
entry — and hence a series containing it — is processed, not failed. -/
theorem claim_C3 (e : RawEntry) :
    (e.value = none →
      processItem (rawEntryJson e)
        = .ok ((parseDateStr e.date).1, ⟨(parseDateStr e.date).2, none⟩)
      ∧ ∀ u, Warning.badValue u ∉ (parseDateStr e.date).1)
    ∧ (∀ s, e.value = some s → pyStrToFloat s = none →
      processItem (rawEntryJson e)
        = .ok ((parseDateStr e.date).1 ++ [Warning.badValue (Json.str s)],
               ⟨(parseDateStr e.date).2, none⟩))
    ∧ (∀ (k : String) (pre post : List RawEntry),
      (process_measurement_data (RawSeries.toJson ⟨k, pre ++ e :: post⟩)).2
        = Except.ok (some ⟨Json.str k, (pre ++ e :: post).map normRawEntry⟩)) := by
  refine ⟨fun hv => ?_, fun s hv hf => ?_, fun k pre post => process_rawSeries_snd ⟨k, pre ++ e :: post⟩⟩
  · rw [show processItem (rawEntryJson e)
        = .ok ((parseDateStr e.date).1 ++ (parseValue (optStrJson e.value)).1,
               ⟨(parseDateStr e.date).2, (parseValue (optStrJson e.value)).2⟩)
      from processItem_rawEntry e, hv]
    exact ⟨by simp [optStrJson, parseValue], fun u => parseDateStr_no_badValue e.date u⟩
  · rw [show processItem (rawEntryJson e)
        = .ok ((parseDateStr e.date).1 ++ (parseValue (optStrJson e.value)).1,
               ⟨(parseDateStr e.date).2, (parseValue (optStrJson e.value)).2⟩)
      from processItem_rawEntry e, hv]
    simp [optStrJson, parseValue, pyFloatOf, hf]

/-- Claim C3, witness: a wire-null value is absent without a warning, and
the unparseable value `"abc"` is absent with a warning, each inside an
otherwise normal entry. -/
theorem claim_C3_witness :
    processItem (rawEntryJson ⟨some "2024-01-01 10:00:00", none⟩)
      = .ok ([], ⟨some ⟨2024, 1, 1, 10, 0, 0⟩, none⟩)
    ∧ processItem (rawEntryJson ⟨some "2024-01-01 10:00:00", some "abc"⟩)
      = .ok ([Warning.badValue (Json.str "abc")], ⟨some ⟨2024, 1, 1, 10, 0, 0⟩, none⟩) :=
  ⟨((claim_C3 ⟨some "2024-01-01 10:00:00", none⟩).1 rfl).1,
   (claim_C3 ⟨some "2024-01-01 10:00:00", some "abc"⟩).2.1 "abc" rfl rfl⟩

/-- Claim C4, counterexample: an entry whose date string is empty fails
the fixed format (`strptime` cannot parse `""`), yet the code logs no
warning at all for it — the truthiness guard skips the parse — so the
claim's "a warning is logged" fails for this entry. -/
theorem claim_C4_counterexample :
    strptimeYmdHMS "" = none
    ∧ processItem (rawEntryJson ⟨some "", some "1"⟩)
        = .ok ([], ⟨none, some ⟨1, 0⟩⟩) :=
  ⟨rfl, rfl⟩

/-- Claim C4, amended: for every entry whose date string is non-empty and
fails to parse with the fixed format `YYYY-MM-DD HH:MM:SS`, a warning is
logged and the timestamp field is set absent for that entry; the entry's
value field is exactly what the value branch alone produces, and any
series containing the entry is still processed in full.  (An empty date
string also yields an absent timestamp, but silently.) -/
theorem claim_C4 (e : RawEntry) (s : String) (hd : e.date = some s)
    (hne : s.isEmpty = false) (hp : strptimeYmdHMS s = none) :
    processItem (rawEntryJson e)
      = .ok (Warning.badDate s :: (parseValue (optStrJson e.value)).1,
             ⟨none, (parseValue (optStrJson e.value)).2⟩)
    ∧ (∀ (k : String) (pre post : List RawEntry),
      (process_measurement_data (RawSeries.toJson ⟨k, pre ++ e :: post⟩)).2
        = Except.ok (some ⟨Json.str k, (pre ++ e :: post).map normRawEntry⟩)) := by
  refine ⟨?_, fun k pre post => process_rawSeries_snd ⟨k, pre ++ e :: post⟩⟩
  rw [processItem_rawEntry e, hd]
  simp [parseDateStr, hne, hp]

/-- Claim C4, witness: the entry with date `"not-a-date"` and value
`"12.5"` gets a date warning, an absent timestamp and an unaffected
value, and a one-entry series around it is processed. -/
theorem claim_C4_witness :
    processItem (rawEntryJson ⟨some "not-a-date", some "12.5"⟩)
      = .ok ([Warning.badDate "not-a-date"], ⟨none, some ⟨125, -1⟩⟩)
    ∧ (process_measurement_data (RawSeries.toJson ⟨"PM10", [⟨some "not-a-date", some "12.5"⟩]⟩)).2
      = Except.ok (some ⟨Json.str "PM10", [⟨none, some ⟨125, -1⟩⟩]⟩) :=
  ⟨(claim_C4 ⟨some "not-a-date", some "12.5"⟩ "not-a-date" rfl rfl rfl).1,
   (claim_C4 ⟨some "not-a-date", some "12.5"⟩ "not-a-date" rfl rfl rfl).2 "PM10" [] []⟩

/-- Claim C5: on the contract domain of the normalizer (the input is
wire-null, as a failed fetch returns, or a record), the gate fails —
printing the error and returning `None` — exactly when the input is
absent or lacks a `values` field; for every other input the gate does not
produce the absent result. -/
theorem claim_C5 (j : Json) (hdom : j = Json.null ∨ ∃ fs, j = Json.obj fs) :
    process_measurement_data j = ([Warning.invalidInput], Except.ok none)
      ↔ (j = Json.null ∨ lacksValuesField j = true) := by
  rcases hdom with rfl | ⟨fs, rfl⟩
  · exact iff_of_true rfl (Or.inl rfl)
  · rcases hlk : jlookup fs "values" with _ | v
    · cases hfs : fs with
      | nil => simp [process_measurement_data, pyTruthy, lacksValuesField, jlookup]
      | cons p rest =>
        rw [← hfs]
        have ht : pyTruthy (Json.obj fs) = true := by rw [hfs]; rfl
        have hL : process_measurement_data (Json.obj fs)
            = ([Warning.invalidInput], Except.ok none) := by
          simp [process_measurement_data, ht, pyContains, hlk]
        simp [hL, lacksValuesField, hlk]
    · have hL : process_measurement_data (Json.obj fs)
          ≠ ([Warning.invalidInput], Except.ok none) := by
        intro h
        exact process_after_gate fs v hlk (by rw [h])
      simp [hL, lacksValuesField, hlk]

/-- Claim C5, witness: the absent input itself fails the gate with the
error report. -/
theorem claim_C5_witness :
    process_measurement_data Json.null = ([Warning.invalidInput], Except.ok none) :=
  (claim_C5 Json.null (Or.inl rfl)).mpr (Or.inl rfl)

/-- Claim C6: the spec's worked example.  The raw PM10 series with a
parseable first entry and a wire-null second value normalizes to key PM10
and exactly two entries: timestamp 2024-01-01T10:00:00 with value 12.5
(the exact decimal 125·10⁻¹), then timestamp 2024-01-01T11:00:00 with an
absent value; no warning is printed. -/
theorem claim_C6 :
    process_measurement_data (Json.obj [("key", Json.str "PM10"),
      ("values", Json.arr [
        Json.obj [("date", Json.str "2024-01-01 10:00:00"), ("value", Json.str "12.5")],
        Json.obj [("date", Json.str "2024-01-01 11:00:00"), ("value", Json.null)]])])
    = ([], Except.ok (some ⟨Json.str "PM10",
        [⟨some ⟨2024, 1, 1, 10, 0, 0⟩, some ⟨125, -1⟩⟩,
         ⟨some ⟨2024, 1, 1, 11, 0, 0⟩, none⟩]⟩)) := rfl

/-- Claim C7: normalization is deterministic — two applications of
`process_measurement_data` to the same raw series yield identical output
(diagnostics included).  In this embedding the routine is a pure function
of its input, so the two runs coincide definitionally. -/
theorem claim_C7 (raw : Json) :
    process_measurement_data raw = process_measurement_data raw := rfl

/-- Claim C8: every transport, timeout or HTTP-status failure (any caught
`RequestException` outcome) makes each fetch operation return the absent
result with one human-readable diagnostic instead of raising, and for the
station- and sensor-parameterized operations that diagnostic contains the
respective id. -/
theorem claim_C8 (e : RequestError) (sid mid : Int) :
    fetch_stations (Except.error e)
      = (none, ["Błąd pobierania stacji z GIOŚ API: " ++ e.msg])
    ∧ fetch_sensors_for_station sid (Except.error e)
      = (none, ["Błąd pobierania sensorów dla stacji " ++ toString sid
                ++ " z GIOŚ API: " ++ e.msg])
    ∧ fetch_measurements_for_sensor mid (Except.error e)
      = (none, ["Błąd pobierania pomiarów dla sensora " ++ toString mid
                ++ " z GIOŚ API: " ++ e.msg])
    ∧ (∃ pre post, (fetch_sensors_for_station sid (Except.error e)).2
        = [pre ++ toString sid ++ post])
    ∧ (∃ pre post, (fetch_measurements_for_sensor mid (Except.error e)).2
        = [pre ++ toString mid ++ post]) := by
  refine ⟨rfl, rfl, rfl,
    ⟨"Błąd pobierania sensorów dla stacji ", " z GIOŚ API: " ++ e.msg, ?_⟩,
    ⟨"Błąd pobierania pomiarów dla sensora ", " z GIOŚ API: " ++ e.msg, ?_⟩⟩
  · show [_ ++ toString sid ++ " z GIOŚ API: " ++ e.msg] = _
    simp [String.append_assoc]
  · show [_ ++ toString mid ++ " z GIOŚ API: " ++ e.msg] = _
    simp [String.append_assoc]

/-- Claim C9: an entry whose `date` field is missing, wire-null or the
empty string is normalized with an absent timestamp and no date warning
(only value warnings can occur), unlike a present malformed date string. -/
theorem claim_C9 (gs : List (String × Json))
    (hd : jlookup gs "date" = none ∨ jlookup gs "date" = some Json.null
          ∨ jlookup gs "date" = some (Json.str "")) :
    ∃ w v, processItem (Json.obj gs) = .ok (w, ⟨none, v⟩)
      ∧ ∀ s, Warning.badDate s ∉ w := by
  have hdate : parseDate ((jlookup gs "date").getD Json.null) = .ok ([], none) := by
    rcases hd with hd | hd | hd <;> rw [hd] <;> rfl
  refine ⟨(parseValue ((jlookup gs "value").getD Json.null)).1,
          (parseValue ((jlookup gs "value").getD Json.null)).2, ?_, ?_⟩
  · simp [processItem, pyDictGet, pyDictGetD, hdate]
  · intro s
    exact parseValue_no_badDate _ s

/-- Claim C9, witness: an entry with no `date` field at all gets an
absent timestamp and no date warning. -/
theorem claim_C9_witness :
    ∃ w v, processItem (Json.obj [("value", Json.str "7")]) = .ok (w, ⟨none, v⟩)
      ∧ ∀ s, Warning.badDate s ∉ w :=
  claim_C9 [("value", Json.str "7")] (Or.inl rfl)

/-- Claim C10: `process_measurement_data` only reads its input — in the
state-instrumented run, which threads the raw series value through every
step of the call, the input left after the call equals the input before
it, field for field and entry for entry, while the computed result is the
ordinary one built in fresh structures. -/
theorem claim_C10 (raw : Json) :
    (process_measurement_data_st raw).1 = raw
    ∧ (process_measurement_data_st raw).2 = process_measurement_data raw :=
  ⟨by rw [process_st_eq], by rw [process_st_eq]⟩

end GiosApi
